import Mathlib

/-!
Verification of the number-service core: a handler that inserts a 32-bit
signed integer into a relational table and returns the full list of stored
values sorted ascending.

The embedding models:
* the `numbers` table as a list of records plus a fresh-id counter,
* the sqlc query pair `InsertNumber` / `GetAllNumbersSorted`,
* the HTTP handler `Server.AddNumber`, with an explicit fault parameter
  standing for the two ways a store call can return an error,
* Go's `int32(x)` narrowing of a platform-width `int`,
* the startup logic of `main` that checks the `POSTGRES_DSN` variable.
-/

/-- One row of the `numbers` table: `id uuid primary key`, `number integer`.
Identifiers are modelled as naturals drawn from a fresh counter; the schema
only requires them to be unique and system-generated. -/
structure NumberRecord where
  id : Nat
  number : Int
deriving DecidableEq, Repr

/-- The state of the `numbers` table: the stored rows in storage order and
the counter from which the next record identifier is generated. -/
structure DB where
  nextId : Nat
  rows : List NumberRecord
deriving DecidableEq, Repr

/-- The empty store, as after the migration creates the `numbers` table. -/
def emptyDB : DB := ⟨0, []⟩

/-- `-- name: InsertNumber :one` — `INSERT INTO numbers (number) VALUES ($1)
RETURNING id, number`.  Appends exactly one new row with a fresh identifier
and returns the created record together with the new store state. -/
def InsertNumber (db : DB) (n : Int) : NumberRecord × DB :=
  let r : NumberRecord := ⟨db.nextId, n⟩
  (r, ⟨db.nextId + 1, db.rows ++ [r]⟩)

/-- Ordering of rows used by `ORDER BY number ASC`: compare the `number`
column; ties among equal values are left to storage order. -/
def recLE (a b : NumberRecord) : Prop := a.number ≤ b.number

instance : DecidableRel recLE :=
  fun a b => inferInstanceAs (Decidable (a.number ≤ b.number))

instance : IsTotal NumberRecord recLE :=
  ⟨fun a b => Int.le_total a.number b.number⟩

instance : IsTrans NumberRecord recLE :=
  ⟨fun _ _ _ h1 h2 => le_trans h1 h2⟩

/-- `-- name: GetAllNumbersSorted :many` — `SELECT id, number FROM numbers
ORDER BY number ASC`.  A `SELECT` does not modify the table, so the store
state is returned unchanged alongside the sorted rows. -/
def GetAllNumbersSorted (db : DB) : List NumberRecord × DB :=
  (List.insertionSort recLE db.rows, db)

/-- Go's conversion `int32(x)` applied to a platform-width `int`: the value
is truncated to the low 32 bits, interpreted in two's complement. -/
def toInt32 (n : Int) : Int := (n + 2 ^ 31) % 2 ^ 32 - 2 ^ 31

/-- The two response objects the handler can build:
`api.AddNumber200JSONResponse{Numbers: &result}` and
`api.AddNumber500JSONResponse{Error: msg}`. -/
inductive AddNumberResponse where
  | ok200 (numbers : List Int)
  | err500 (error : String)
deriving DecidableEq, Repr

/-- Which of the two store calls made by the handler returns an error on
this request: none, the insert, or the sorted read.  The message is the
text of the underlying store error. -/
inductive StoreFault where
  | ok
  | insertFail (msg : String)
  | readFail (msg : String)
deriving DecidableEq, Repr

/-- What one call of `Server.AddNumber` produces: the response object, the
Go-level `error` return value of the handler, and the store state after
the call. -/
structure HandlerResult where
  resp : AddNumberResponse
  goErr : Option String
  db : DB
deriving DecidableEq, Repr

/-- `Server.AddNumber`: narrow the request parameter with `int32(...)`,
call `InsertNumber`; on error return a 500 wrapping the message and a nil
Go error.  Otherwise call `GetAllNumbersSorted`; on error return a 500
wrapping that message.  Otherwise map each record to `int(num.Number)`
(exact, since the value is an int32) and return the 200 response. -/
def AddNumber (fault : StoreFault) (db : DB) (number : Int) : HandlerResult :=
  match fault with
  | .insertFail msg =>
      ⟨.err500 ("failed to insert number: " ++ msg), none, db⟩
  | .readFail msg =>
      let inserted := InsertNumber db (toInt32 number)
      ⟨.err500 ("failed to get numbers: " ++ msg), none, inserted.2⟩
  | .ok =>
      let inserted := InsertNumber db (toInt32 number)
      let fetched := GetAllNumbersSorted inserted.2
      ⟨.ok200 (fetched.1.map fun r => r.number), none, fetched.2⟩

/-- Run a sequence of handler calls, each with its own fault outcome,
threading the store state. -/
def runAdds (db : DB) (script : List (StoreFault × Int)) : DB :=
  script.foldl (fun d p => (AddNumber p.1 d p.2).db) db

/-- Run a sequence of handler calls that all succeed at the store. -/
def processAll (db : DB) (ns : List Int) : DB :=
  ns.foldl (fun d n => (AddNumber .ok d n).db) db

/-- The values the sorted read reports, in order: the `number` column of
`GetAllNumbersSorted`, as the handler maps it into the response. -/
def sortedValues (db : DB) : List Int :=
  (GetAllNumbersSorted db).1.map fun r => r.number

/-- `getEnv` from `main.go`: return the environment value when it is
non-empty, the default otherwise (`os.Getenv` yields `""` for an absent
variable). -/
def goGetEnv (env : String → String) (key defaultValue : String) : String :=
  if env key ≠ "" then env key else defaultValue

/-- How far `main` gets before serving: either it logs
`POSTGRES_DSN is not set` and returns without creating the HTTP server,
or it proceeds to connect to the database and start the server. -/
inductive StartupOutcome where
  | exitNoDSN
  | proceed (dsn addr : String)
deriving DecidableEq, Repr

/-- The configuration check at the top of `main`: read `POSTGRES_DSN`
(default `""`) and `SERVER_ADDR` (default `":8080"`); if the DSN is empty,
log an error and return before any server is constructed. -/
def mainStartup (env : String → String) : StartupOutcome :=
  let dsn := goGetEnv env "POSTGRES_DSN" ""
  let addr := goGetEnv env "SERVER_ADDR" ":8080"
  if dsn = "" then .exitNoDSN else .proceed dsn addr

/-! ## Helper lemmas -/

/-- Any single handler call appends at most one row to the table and keeps
every existing row in place. -/
theorem addNumber_rows_extend (f : StoreFault) (db : DB) (n : Int) :
    ∃ t, (AddNumber f db n).db.rows = db.rows ++ t ∧ t.length ≤ 1 := by
  cases f with
  | insertFail msg => exact ⟨[], by simp [AddNumber]⟩
  | readFail msg => exact ⟨[⟨db.nextId, toInt32 n⟩], rfl, by simp⟩
  | ok => exact ⟨[⟨db.nextId, toInt32 n⟩], rfl, by simp⟩

/-- A whole script of handler calls only ever appends rows. -/
theorem runAdds_rows_extend (script : List (StoreFault × Int)) (db : DB) :
    ∃ t, (runAdds db script).rows = db.rows ++ t := by
  induction script generalizing db with
  | nil => exact ⟨[], by simp [runAdds]⟩
  | cons p s ih =>
    obtain ⟨t1, h1, _⟩ := addNumber_rows_extend p.1 db p.2
    obtain ⟨t2, h2⟩ := ih ((AddNumber p.1 db p.2).db)
    refine ⟨t1 ++ t2, ?_⟩
    simp only [runAdds, List.foldl_cons] at h2 ⊢
    rw [h2, h1, List.append_assoc]

/-- A row present in the table stays present after any script of handler
calls. -/
theorem mem_runAdds_rows {r : NumberRecord} {db : DB} (h : r ∈ db.rows)
    (script : List (StoreFault × Int)) : r ∈ (runAdds db script).rows := by
  obtain ⟨t, ht⟩ := runAdds_rows_extend script db
  rw [ht]
  exact List.mem_append_left _ h

/-- The values reported by the sorted read are a permutation of the values
stored in the table. -/
theorem sortedValues_perm (db : DB) :
    (sortedValues db).Perm (db.rows.map fun r => r.number) :=
  (List.perm_insertionSort recLE db.rows).map _

/-- The values reported by the sorted read are in ascending order. -/
theorem sortedValues_sorted (db : DB) : (sortedValues db).Sorted (· ≤ ·) :=
  List.Pairwise.map _ (fun _ _ hab => hab) (List.sorted_insertionSort recLE db.rows)

/-- The value of any row of the table appears in the sorted read. -/
theorem number_mem_sortedValues {r : NumberRecord} {db : DB} (h : r ∈ db.rows) :
    r.number ∈ sortedValues db :=
  ((sortedValues_perm db).mem_iff).mpr (List.mem_map_of_mem _ h)

/-- Running a list of all-successful handler calls appends exactly the
narrowed input values, in order, to the stored value column. -/
theorem processAll_rows (ns : List Int) (db : DB) :
    (processAll db ns).rows.map (fun r => r.number)
      = db.rows.map (fun r => r.number) ++ ns.map toInt32 := by
  induction ns generalizing db with
  | nil => simp [processAll]
  | cons n ns ih =>
    simp only [processAll, List.foldl_cons, List.map_cons] at ih ⊢
    rw [ih]
    simp [AddNumber, InsertNumber, GetAllNumbersSorted]

/-- Narrowing to `int32` is the identity on values already in range. -/
theorem toInt32_eq_self {n : Int} (h1 : -2 ^ 31 ≤ n) (h2 : n < 2 ^ 31) :
    toInt32 n = n := by
  have e1 : (2 : Int) ^ 31 = 2147483648 := by norm_num
  have e2 : (2 : Int) ^ 32 = 4294967296 := by norm_num
  unfold toInt32
  rw [e1, e2] at *
  omega

/-- The narrowed value always lies in the signed 32-bit range. -/
theorem toInt32_range (n : Int) : -2 ^ 31 ≤ toInt32 n ∧ toInt32 n < 2 ^ 31 := by
  have e1 : (2 : Int) ^ 31 = 2147483648 := by norm_num
  have e2 : (2 : Int) ^ 32 = 4294967296 := by norm_num
  unfold toInt32
  rw [e1, e2]
  omega

/-- Narrowing preserves the value modulo `2^32`: Go's `int32(x)` keeps the
low 32 bits. -/
theorem toInt32_emod (n : Int) : toInt32 n % 2 ^ 32 = n % 2 ^ 32 := by
  have e2 : (2 : Int) ^ 32 = 4294967296 := by norm_num
  unfold toInt32
  rw [e2]
  omega

/-! ## Claim theorems -/

/-- C1: for every sequence of inserted 32-bit signed integers (duplicates,
zero and the boundary values included), executed sequentially against an
initially empty store, the successful response to the final insert request
is the 200 response carrying exactly the multiset of all inserted values
sorted in ascending order. -/
theorem final_insert_response_sorted_multiset (ns : List Int) (m : Int)
    (h : ∀ x ∈ ns ++ [m], -2 ^ 31 ≤ x ∧ x < 2 ^ 31) :
    ∃ L : List Int,
      (AddNumber .ok (processAll emptyDB ns) m).resp = .ok200 L ∧
      L.Perm (ns ++ [m]) ∧ L.Sorted (· ≤ ·) := by
  refine ⟨sortedValues (InsertNumber (processAll emptyDB ns) (toInt32 m)).2,
    rfl, ?_, sortedValues_sorted _⟩
  have hrows : (InsertNumber (processAll emptyDB ns) (toInt32 m)).2.rows.map
      (fun r => r.number) = (ns ++ [m]).map toInt32 := by
    show ((processAll emptyDB ns).rows
        ++ [(⟨(processAll emptyDB ns).nextId, toInt32 m⟩ : NumberRecord)]).map
          (fun r => r.number)
      = (ns ++ [m]).map toInt32
    rw [List.map_append, processAll_rows, List.map_append]
    simp [emptyDB]
  have hid : (ns ++ [m]).map toInt32 = ns ++ [m] := by
    have hcongr := List.map_congr_left
      (fun x hx => toInt32_eq_self (h x hx).1 (h x hx).2)
    simpa using hcongr
  have hfinal := sortedValues_perm (InsertNumber (processAll emptyDB ns) (toInt32 m)).2
  rw [hrows, hid] at hfinal
  exact hfinal

theorem final_insert_response_sorted_multiset_witness :
    ∃ L : List Int,
      (AddNumber .ok (processAll emptyDB [5, 1, 9, 3]) 7).resp = .ok200 L ∧
      L.Perm ([5, 1, 9, 3] ++ [7]) ∧ L.Sorted (· ≤ ·) :=
  final_insert_response_sorted_multiset [5, 1, 9, 3] 7 (by decide)

/-- C2: when the insert fails, the handler returns the 500 response whose
message wraps the underlying error, the Go-level handler error is nil (the
failure is not propagated and the process does not crash), and the store
state is returned untouched — so the sorted read is not consulted, nothing
is retried and nothing is partially inserted. -/
theorem insert_failure_500_no_effect (msg : String) (db : DB) (n : Int) :
    AddNumber (.insertFail msg) db n =
      ⟨.err500 ("failed to insert number: " ++ msg), none, db⟩ := rfl

/-- C3: when the insert succeeds and the sorted read fails, the handler
returns the 500 response wrapping the read error with a nil Go-level
error, yet the inserted value is already committed: it appears in the
sorted read after every later script of handler calls. -/
theorem read_failure_500_insert_durable (msg : String) (db : DB) (n : Int)
    (script : List (StoreFault × Int)) :
    (AddNumber (.readFail msg) db n).resp
        = .err500 ("failed to get numbers: " ++ msg) ∧
    (AddNumber (.readFail msg) db n).goErr = none ∧
    toInt32 n ∈ sortedValues (runAdds (AddNumber (.readFail msg) db n).db script) := by
  refine ⟨rfl, rfl, ?_⟩
  have hmem : (⟨db.nextId, toInt32 n⟩ : NumberRecord)
      ∈ (AddNumber (.readFail msg) db n).db.rows := by
    simp [AddNumber, InsertNumber]
  exact number_mem_sortedValues (mem_runAdds_rows hmem script)

/-- C4: every value in the signed 32-bit range, boundaries included, is
stored exactly as supplied and appears exactly as supplied in the 200
response: narrowing is the identity in range, with no further validation,
rounding or wrapping. -/
theorem in_range_value_round_trips (db : DB) (n : Int)
    (h1 : -2 ^ 31 ≤ n) (h2 : n < 2 ^ 31) :
    ((InsertNumber db (toInt32 n)).1).number = n ∧
    ∃ L, (AddNumber .ok db n).resp = .ok200 L ∧ n ∈ L := by
  have ht : toInt32 n = n := toInt32_eq_self h1 h2
  refine ⟨ht, sortedValues (InsertNumber db (toInt32 n)).2, rfl, ?_⟩
  rw [ht]
  have hmem : (⟨db.nextId, n⟩ : NumberRecord) ∈ (InsertNumber db n).2.rows := by
    simp [InsertNumber]
  exact number_mem_sortedValues hmem

theorem in_range_value_round_trips_witness :
    (((InsertNumber emptyDB (toInt32 (-2147483648))).1).number = -2147483648 ∧
      ∃ L, (AddNumber .ok emptyDB (-2147483648)).resp = .ok200 L ∧
        (-2147483648 : Int) ∈ L) ∧
    (((InsertNumber emptyDB (toInt32 2147483647)).1).number = 2147483647 ∧
      ∃ L, (AddNumber .ok emptyDB 2147483647).resp = .ok200 L ∧
        (2147483647 : Int) ∈ L) :=
  ⟨in_range_value_round_trips emptyDB (-2147483648) (by decide) (by decide),
   in_range_value_round_trips emptyDB 2147483647 (by decide) (by decide)⟩

/-- C5: inserting the value `v` exactly `n` times (n ≥ 1) against an empty
store yields exactly `n` occurrences of `v` in the sorted output — rows are
stored distinctly and no deduplication or unique constraint applies. -/
theorem duplicates_preserved (v : Int) (n : Nat)
    (h1 : -2 ^ 31 ≤ v) (h2 : v < 2 ^ 31) (hn : 1 ≤ n) :
    (sortedValues (processAll emptyDB (List.replicate n v))).count v = n := by
  have hperm := sortedValues_perm (processAll emptyDB (List.replicate n v))
  rw [hperm.count_eq, processAll_rows]
  simp [emptyDB, toInt32_eq_self h1 h2]

theorem duplicates_preserved_witness :
    (sortedValues (processAll emptyDB (List.replicate 3 5))).count 5 = 3 :=
  duplicates_preserved 5 3 (by decide) (by decide) (by decide)

/-- C6: once an insert of `v` succeeds, `v` appears in the sorted read
after every later script of handler calls over the same store — the core
never removes or updates it. -/
theorem inserted_value_persists (db : DB) (v : Int)
    (h1 : -2 ^ 31 ≤ v) (h2 : v < 2 ^ 31)
    (script : List (StoreFault × Int)) :
    v ∈ sortedValues (runAdds (AddNumber .ok db v).db script) := by
  have ht : toInt32 v = v := toInt32_eq_self h1 h2
  have hmem : (⟨db.nextId, v⟩ : NumberRecord) ∈ (AddNumber .ok db v).db.rows := by
    simp [AddNumber, InsertNumber, GetAllNumbersSorted, ht]
  exact number_mem_sortedValues (mem_runAdds_rows hmem script)

theorem inserted_value_persists_witness :
    (5 : Int) ∈ sortedValues (runAdds (AddNumber .ok emptyDB 5).db
      [(.ok, 1), (.readFail "net", 2)]) :=
  inserted_value_persists emptyDB 5 (by decide) (by decide)
    [(.ok, 1), (.readFail "net", 2)]

/-- C7: the sorted read leaves the store untouched, and reading twice in a
row with no intervening insert returns identical results. -/
theorem read_is_idempotent (db : DB) :
    (GetAllNumbersSorted db).2 = db ∧
    (GetAllNumbersSorted ((GetAllNumbersSorted db).2)).1
      = (GetAllNumbersSorted db).1 :=
  ⟨rfl, rfl⟩

/-- C8: whatever the fault outcome, a handler call changes the table only
by appending at most one new record — every previously stored record (id
and value alike) is still present, unchanged and in place. -/
theorem handler_only_appends (f : StoreFault) (db : DB) (n : Int) :
    ∃ t, (AddNumber f db n).db.rows = db.rows ++ t ∧ t.length ≤ 1 :=
  addNumber_rows_extend f db n

/-- C9: when the `POSTGRES_DSN` environment variable is absent (Go's
`os.Getenv` then yields the empty string), `main` logs the error and
returns before the HTTP server is ever constructed: no route is served. -/
theorem missing_dsn_exits_before_serving (env : String → String)
    (h : env "POSTGRES_DSN" = "") :
    mainStartup env = .exitNoDSN := by
  simp [mainStartup, goGetEnv, h]

theorem missing_dsn_exits_before_serving_witness :
    mainStartup (fun _ => "") = .exitNoDSN :=
  missing_dsn_exits_before_serving (fun _ => "") rfl

/-- C10: a parameter outside the signed 32-bit range is silently narrowed
with `int32(...)` — the request still succeeds with a 200 response, the
value stored and returned is the wrap of the input modulo `2^32` into the
signed 32-bit range, and it differs from the value the caller supplied. -/
theorem out_of_range_wraps_silently (db : DB) (n : Int)
    (h : n < -2 ^ 31 ∨ 2 ^ 31 ≤ n) :
    (∃ L, (AddNumber .ok db n).resp = .ok200 L ∧ toInt32 n ∈ L) ∧
    toInt32 n % 2 ^ 32 = n % 2 ^ 32 ∧
    toInt32 n ≠ n := by
  refine ⟨⟨sortedValues (InsertNumber db (toInt32 n)).2, rfl, ?_⟩,
    toInt32_emod n, ?_⟩
  · have hmem : (⟨db.nextId, toInt32 n⟩ : NumberRecord)
        ∈ (InsertNumber db (toInt32 n)).2.rows := by
      simp [InsertNumber]
    exact number_mem_sortedValues hmem
  · obtain ⟨ha, hb⟩ := toInt32_range n
    intro he
    rw [he] at ha hb
    omega

theorem out_of_range_wraps_silently_witness :
    (∃ L, (AddNumber .ok emptyDB 2147483648).resp = .ok200 L ∧
      toInt32 2147483648 ∈ L) ∧
    toInt32 2147483648 % 2 ^ 32 = 2147483648 % 2 ^ 32 ∧
    toInt32 2147483648 ≠ 2147483648 :=
  out_of_range_wraps_silently emptyDB 2147483648 (by decide)
